import Mathlib

/-!
Verification of the STTN dataset engine (`core/dataset.py`, `train.py`).

The verified core is the temporal-reference sampler `get_ref_index` (module
level, lines 204-211 of `core/dataset.py`) together with its two verbatim
method copies `MUSICDataset.get_frame_index` (lines 70-77) and
`AVEDataset.get_ref_index` (lines 143-150), and the mask-sequence flow of
`MUSICDataset.__getitem__`, `AVEDataset.__getitem__` and `Dataset.load_item`.

Randomness model.  The Python code draws from the process-wide `random`
module.  We embed it twice:

1. an oracle-style embedding, where each random primitive receives the value
   it would have drawn as an explicit argument, constrained by a validity
   predicate describing the set of values the primitive can actually return
   (`pyRandomSample` / `pyRandint`); the primitive still performs the same
   argument checks CPython performs (`ValueError` on an invalid request);

2. a state-threading embedding (`GlobalRNG`, `getRefIndexGlobal`) in which the
   process-wide generator is an explicit piece of state, read and advanced by
   every primitive call, used for the concurrency claims.

Python integers are unbounded, so `Int` models them exactly.
-/

/-- Python exceptions observable in this code. `valueError` is raised by
`random.sample` when the requested size is negative or exceeds the population
and by `random.randint` when the range is empty; `indexError` by an
out-of-bounds list subscript. -/
inductive PyError where
  | valueError : PyError
  | indexError : PyError
deriving DecidableEq, Repr

/-- Decidable equality for embedded Python results, so concrete runs can be
checked by evaluation. -/
instance {e a : Type} [DecidableEq e] [DecidableEq a] :
    DecidableEq (Except e a) := fun x y =>
  match x, y with
  | .ok u, .ok v =>
    if h : u = v then .isTrue (by rw [h]) else .isFalse (by simp [h])
  | .error u, .error v =>
    if h : u = v then .isTrue (by rw [h]) else .isFalse (by simp [h])
  | .ok _, .error _ => .isFalse (by simp)
  | .error _, .ok _ => .isFalse (by simp)

/-- Validity of an oracle value for `random.sample(range(length), k)`: the
possible return values are exactly the lists of `k` distinct integers drawn
from `[0, length)` (in draw order, not sorted). -/
def sampleDrawValid (length k : Int) (xs : List Int) : Prop :=
  (xs.length : Int) = k ∧ xs.Nodup ∧ ∀ x ∈ xs, 0 ≤ x ∧ x < length

/-- Embedding of `random.sample(population, k)` for `population = range(n)`
with `n = max length 0` elements.  CPython raises
`ValueError("Sample larger than population or is negative")` unless
`0 <= k <= n`; otherwise it returns the drawn list (the oracle argument). -/
def pyRandomSample (n k : Int) (draw : List Int) : Except PyError (List Int) :=
  if 0 ≤ k ∧ k ≤ n then .ok draw else .error .valueError

/-- Embedding of `random.randint(a, b)`: CPython raises
`ValueError("empty range for randrange")` when `b < a`; otherwise it returns a
uniform draw from `[a, b]` (the oracle argument, constrained to that interval
by hypotheses at use sites). -/
def pyRandint (a b : Int) (draw : Int) : Except PyError Int :=
  if a ≤ b then .ok draw else .error .valueError

/-- Embedding of Python's `list.sort()` (ascending, in place). -/
def pySort (xs : List Int) : List Int :=
  xs.mergeSort (fun a b => decide (a ≤ b))

/-- Embedding of module-level `get_ref_index(length, sample_length)`
(`core/dataset.py` lines 204-211):

    def get_ref_index(length, sample_length):
        if random.uniform(0, 1) > 0.5:
            ref_index = random.sample(range(length), sample_length)
            ref_index.sort()
        else:
            pivot = random.randint(0, length-sample_length)
            ref_index = [pivot+i for i in range(sample_length)]
        return ref_index

`scattered` is the outcome of the coin flip `random.uniform(0, 1) > 0.5`;
`sampleDraw` and `pivotDraw` are the oracle values for the two random
primitives.  `range(sample_length)` is empty for negative arguments, hence
`Int.toNat`. -/
def get_ref_index (length sample_length : Int) (scattered : Bool)
    (sampleDraw : List Int) (pivotDraw : Int) : Except PyError (List Int) :=
  if scattered then
    match pyRandomSample (max length 0) sample_length sampleDraw with
    | .ok xs => .ok (pySort xs)
    | .error e => .error e
  else
    match pyRandint 0 (length - sample_length) pivotDraw with
    | .ok pivot => .ok ((List.range sample_length.toNat).map (fun (i : Nat) => pivot + (i : Int)))
    | .error e => .error e

/-- Embedding of `MUSICDataset.get_frame_index(self, length, ref_count)`
(`core/dataset.py` lines 70-77), whose body is token-for-token identical to
the module-level `get_ref_index`. -/
def MUSICDataset.get_frame_index (length ref_count : Int) (scattered : Bool)
    (sampleDraw : List Int) (pivotDraw : Int) : Except PyError (List Int) :=
  if scattered then
    match pyRandomSample (max length 0) ref_count sampleDraw with
    | .ok xs => .ok (pySort xs)
    | .error e => .error e
  else
    match pyRandint 0 (length - ref_count) pivotDraw with
    | .ok pivot => .ok ((List.range ref_count.toNat).map (fun (i : Nat) => pivot + (i : Int)))
    | .error e => .error e

/-- Embedding of `AVEDataset.get_ref_index(self, length, ref_count)`
(`core/dataset.py` lines 143-150), whose body is token-for-token identical to
the module-level `get_ref_index`. -/
def AVEDataset.get_ref_index (length ref_count : Int) (scattered : Bool)
    (sampleDraw : List Int) (pivotDraw : Int) : Except PyError (List Int) :=
  if scattered then
    match pyRandomSample (max length 0) ref_count sampleDraw with
    | .ok xs => .ok (pySort xs)
    | .error e => .error e
  else
    match pyRandint 0 (length - ref_count) pivotDraw with
    | .ok pivot => .ok ((List.range ref_count.toNat).map (fun (i : Nat) => pivot + (i : Int)))
    | .error e => .error e

/-- Helper definition: the ascending enumeration `[0, 1, …, n-1]` as integers,
the Lean rendering of Python's `range(n)` viewed as a list of ints. -/
def intRange (n : Nat) : List Int :=
  (List.range n).map (fun (i : Nat) => (i : Int))

/-! ## State-threading model of the process-wide `random` module

Python's `random.uniform`, `random.sample`, `random.randint` all draw from one
process-wide Mersenne-Twister instance (`random._inst`).  We model that shared
generator as an abstract pre-drawn stream of raw numbers plus a read position;
every primitive call reads the stream at the current position and advances the
position, which is exactly the shared-mutable-state behaviour the concurrency
claim is about. -/

/-- State of the process-wide random generator: a pre-drawn stream of raw
numbers and the current read position.  Reading advances `pos`; therefore any
call that draws randomness mutates this shared state. -/
structure GlobalRNG where
  tape : Nat → Nat
  pos : Nat

/-- Read one raw number from the process-wide generator and advance it. -/
def rngNext (g : GlobalRNG) : Nat × GlobalRNG :=
  (g.tape g.pos, ⟨g.tape, g.pos + 1⟩)

/-- State-threaded `random.uniform(0, 1) > 0.5`: one draw from the shared
stream, reduced to the branch decision the code makes with it. -/
def rngCoin (g : GlobalRNG) : Bool × GlobalRNG :=
  let r := rngNext g
  (r.1 % 2 == 1, r.2)

/-- State-threaded `random.randint(a, b)`: raises `ValueError` on an empty
range (before consuming any state), otherwise consumes one draw and maps it
into `[a, b]`. -/
def rngRandint (a b : Int) (g : GlobalRNG) : Except PyError Int × GlobalRNG :=
  if a ≤ b then
    let r := rngNext g
    (.ok (a + (r.1 : Int) % (b - a + 1)), r.2)
  else (.error .valueError, g)

/-- Selection loop of state-threaded `random.sample`: `k` times, draw a
position into the remaining pool, take that element out. -/
def rngSampleAux : Nat → List Int → GlobalRNG → List Int × GlobalRNG
  | 0, _, g => ([], g)
  | k + 1, pool, g =>
    let r := rngNext g
    let i := r.1 % pool.length
    let rest := rngSampleAux k (pool.eraseIdx i) r.2
    (pool.getD i 0 :: rest.1, rest.2)

/-- State-threaded `random.sample(range(length), k)`: raises `ValueError`
unless `0 ≤ k ≤ len(range(length))`, otherwise draws `k` distinct elements
consuming `k` raw numbers from the shared stream. -/
def rngSample (length k : Int) (g : GlobalRNG) : Except PyError (List Int) × GlobalRNG :=
  if 0 ≤ k ∧ k ≤ max length 0 then
    let r := rngSampleAux k.toNat (intRange length.toNat) g
    (.ok r.1, r.2)
  else (.error .valueError, g)

/-- State-threaded embedding of `get_ref_index` (`core/dataset.py` lines
204-211), with the process-wide `random` state passed and returned explicitly:
the coin flip, then either `random.sample` + `sort` or `random.randint` +
window construction, each reading and advancing the shared generator. -/
def getRefIndexGlobal (length sample_length : Int) (g : GlobalRNG) :
    Except PyError (List Int) × GlobalRNG :=
  let c := rngCoin g
  cond c.1
    (match rngSample length sample_length c.2 with
     | (.ok xs, g2) => (.ok (pySort xs), g2)
     | (.error e, g2) => (.error e, g2))
    (match rngRandint 0 (length - sample_length) c.2 with
     | (.ok pivot, g2) =>
         (.ok ((List.range sample_length.toNat).map (fun (i : Nat) => pivot + (i : Int))), g2)
     | (.error e, g2) => (.error e, g2))

/-! ## Mask model

`core/dataset.py` line 18 imports `create_fixed_rectangular_mask` and
`create_random_shape_with_random_motion` from `core/utils.py`, a file of this
repository that is not part of the available source.  Their definitions below
are therefore modelled from the spec (sections 4.2 and 4.3), faithful to its
words; everything that consumes them (`MUSICDataset.__getitem__`,
`AVEDataset.__getitem__`, `Dataset.load_item`) is translated from the source.
-/

/-- Mask representation: a 2-D binary grid in row-major order, `true` marking
an occluded pixel (spec section 3, "Mask"). -/
abbrev Grid := List (List Bool)

/-- The grid has exactly `h` rows, each of exactly `w` pixels. -/
def gridRes (m : Grid) (h w : Nat) : Prop :=
  m.length = h ∧ ∀ row ∈ m, row.length = w

instance (m : Grid) (h w : Nat) : Decidable (gridRes m h w) := by
  unfold gridRes
  infer_instance

/-- Number of occluded (true) pixels of a grid. -/
def coverage (m : Grid) : Nat :=
  (m.map (fun row => row.countP id)).sum

/-- Rasterization of the axis-aligned rectangle `[x0, x0+rw) × [y0, y0+rh)`
(x horizontal/column, y vertical/row) into an `h × w` binary grid. -/
def rectGrid (h w x0 y0 rh rw : Nat) : Grid :=
  (List.range h).map (fun i =>
    (List.range w).map (fun j =>
      decide (x0 ≤ j ∧ j < x0 + rw ∧ y0 ≤ i ∧ i < y0 + rh)))

/-- One step of a call-local linear congruential generator, used to model the
seeded pseudo-random source of the fixed-mask generator. -/
def lcgStep (s : Nat) : Nat :=
  (1103515245 * s + 12345) % 2147483648

/-- Modelled from the spec: `create_fixed_rectangular_mask(count, height,
width, seed)` lives in `core/utils.py`, which is missing from the available
source (only its import at `core/dataset.py` line 18 and call at line 54 are
visible).  Spec section 4.2: it returns a `MaskSequence` of length `count`,
each mask `height × width`, holding one rectangle whose position/extent is
derived from `seed` via a seeded pseudo-random source local to the call — not
the process-wide random stream, so reseeding the process does not perturb it.
The `GlobalRNG` argument stands for the process-wide stream the function has
access to but, per the spec, never reads. -/
def create_fixed_rectangular_mask (count height width seed : Nat)
    (globalStream : GlobalRNG) : List Grid :=
  let r1 := lcgStep seed
  let r2 := lcgStep r1
  let r3 := lcgStep r2
  let r4 := lcgStep r3
  let rh := 1 + r1 % max height 1
  let rw := 1 + r2 % max width 1
  let y0 := r3 % max (height - rh + 1) 1
  let x0 := r4 % max (width - rw + 1) 1
  List.replicate count (rectGrid height width x0 y0 rh rw)

/-- Clamp an integer into `[0, hi]` and return it as a natural number. -/
def clampToRange (v : Int) (hi : Nat) : Nat :=
  (min v (hi : Int)).toNat

/-- Shape state of the moving-shape generator (spec section 3, "Shape
state"): the top-left corner of the current occluding square.  Created at the
start of one mask-sequence synthesis, mutated once per frame, discarded
afterwards. -/
structure ShapeState where
  x : Nat
  y : Nat
deriving DecidableEq, Repr

/-- Per-sequence random draws of the moving-shape generator: the shape's side
length, its initial corner, and the per-frame velocity draws. -/
structure ShapeDraws where
  size : Nat
  x0 : Nat
  y0 : Nat
  move : Nat → Int × Int

/-- Validity of the moving-shape draws (spec section 4.3): the side length is
positive and at most half of each frame dimension (a size drawn from a
configured range, keeping the coverage ratio below the configured maximum of
0.5), and every per-frame velocity component is bounded by the configured
per-frame displacement bound `vmax`. -/
def shapeDrawValid (height width vmax : Nat) (dr : ShapeDraws) : Prop :=
  1 ≤ dr.size ∧ 2 * dr.size ≤ height ∧ 2 * dr.size ≤ width ∧
  ∀ n, -(vmax : Int) ≤ (dr.move n).1 ∧ (dr.move n).1 ≤ vmax ∧
       -(vmax : Int) ≤ (dr.move n).2 ∧ (dr.move n).2 ≤ vmax

/-- Advance the shape by one frame: add the frame's velocity draw to the
corner and clamp so the square stays inside the frame (spec section 4.3 step
2: "clamp or reflect the center so the shape stays substantially within frame
bounds"). -/
def shapeStep (height width size : Nat) (st : ShapeState) (d : Int × Int) :
    ShapeState :=
  ⟨clampToRange ((st.x : Int) + d.1) (width - size),
   clampToRange ((st.y : Int) + d.2) (height - size)⟩

/-- Shape state before frame `t`: the initial corner (clamped into the frame)
advanced by the first `t` velocity draws. -/
def shapeStates (height width : Nat) (dr : ShapeDraws) : Nat → ShapeState
  | 0 => ⟨min dr.x0 (width - dr.size), min dr.y0 (height - dr.size)⟩
  | t + 1 => shapeStep height width dr.size (shapeStates height width dr t) (dr.move t)

/-- Modelled from the spec: `create_random_shape_with_random_motion(...)`
lives in `core/utils.py`, which is missing from the available source (only
its import at `core/dataset.py` line 18 and calls at lines 114 and 184-185
are visible).  Spec section 4.3: initialize a shape state from per-sequence random
draws, then for each of `frameCount` frames advance the state by the frame's
bounded velocity draw, clamp it into the frame, and rasterize the current
shape into a `height × width` binary grid. -/
def create_random_shape_with_random_motion (frameCount height width : Nat)
    (dr : ShapeDraws) : List Grid :=
  (List.range frameCount).map (fun t =>
    let st := shapeStates height width dr t
    rectGrid height width st.x st.y dr.size dr.size)

/-- Effective position of Python list subscription: negative indices count
from the end of the list. -/
def pyIndex (n : Nat) (i : Int) : Int :=
  if i < 0 then i + n else i

/-- Embedding of Python list subscription `l[i]`: negative indices count from
the end; out-of-bounds access raises `IndexError`. -/
def pyListGet {α : Type} (l : List α) (i : Int) : Except PyError α :=
  if h : 0 ≤ pyIndex l.length i ∧ (pyIndex l.length i).toNat < l.length
  then .ok (l.get ⟨(pyIndex l.length i).toNat, h.2⟩)
  else .error .indexError

/-- Mask flow of `MUSICDataset.__getitem__` (`core/dataset.py` lines 49-67).
Line 54 reads `masks = create_fixed_rectangular_mask(5, 256, 256, 42)` with
all four arguments hardcoded: the dataset's configured `ref_frames`
(`sample_length`) and requested `(height, width)` do not reach the mask
generator, which is why they appear as parameters but are never used. -/
def MUSICDataset.getItemMasks (ref_frames height width : Nat)
    (g : GlobalRNG) : List Grid :=
  create_fixed_rectangular_mask 5 256 256 42 g

/-- Mask flow of `Dataset.load_item` (`core/dataset.py` lines 181-201):
`all_masks = create_random_shape_with_random_motion(len(all_frames), h, w)`,
`ref_index = get_ref_index(len(all_frames), sample_length)`, then
`masks.append(all_masks[idx])` for each `idx` in `ref_index`. -/
def Dataset.loadItemMasks (numFrames : Nat) (sample_length : Int)
    (h w : Nat) (dr : ShapeDraws) (scattered : Bool) (sd : List Int)
    (p : Int) : Except PyError (List Grid) :=
  let all_masks := create_random_shape_with_random_motion numFrames h w dr
  match get_ref_index numFrames sample_length scattered sd p with
  | .error e => .error e
  | .ok refIndex => refIndex.mapM (fun idx => pyListGet all_masks idx)

/-- Mask flow of `AVEDataset.__getitem__` (`core/dataset.py` lines 111-132):
line 114 binds `all_masks` to the moving-shape sequence, lines 115-120 load
one static mask image from `mask_dir` and optionally flip it (`staticMask`
stands for the loaded, possibly flipped image), line 121 rebinds
`all_masks = [mask] * len(all_frames)`, and lines 126-132 then select
`all_masks[i]` for each sampled index. -/
def AVEDataset.getItemMasks {α : Type} (movingMasks : List α) (staticMask : α)
    (numFrames : Nat) (refIndex : List Int) : Except PyError (List α) :=
  let all_masks := movingMasks
  let all_masks := List.replicate numFrames staticMask
  refIndex.mapM (fun i => pyListGet all_masks i)

/-! ## Helper lemmas -/

/-- The sorted output of `pySort` is sorted with respect to `≤`. -/
theorem pySort_sorted (xs : List Int) : (pySort xs).Sorted (· ≤ ·) := by
  have htrans : ∀ a b c : Int, decide (a ≤ b) = true → decide (b ≤ c) = true →
      decide (a ≤ c) = true := by
    intro a b c h1 h2
    simp at *
    omega
  have htotal : ∀ a b : Int, (decide (a ≤ b) || decide (b ≤ a)) = true := by
    intro a b
    simp
    omega
  have h := @List.sorted_mergeSort Int (fun a b => decide (a ≤ b)) htrans htotal xs
  exact h.imp (fun hab => by simpa using hab)

/-- `pySort` permutes its input. -/
theorem pySort_perm (xs : List Int) : (pySort xs).Perm xs :=
  List.mergeSort_perm xs _

/-- `pySort` of a duplicate-free list is strictly sorted. -/
theorem pySort_sorted_lt (xs : List Int) (h : xs.Nodup) :
    (pySort xs).Sorted (· < ·) :=
  (pySort_sorted xs).lt_of_le ((pySort_perm xs).nodup_iff.mpr h)

theorem intRange_sorted_le (n : Nat) : (intRange n).Sorted (· ≤ ·) := by
  unfold intRange
  rw [List.Sorted, List.pairwise_map]
  refine (List.pairwise_lt_range n).imp ?_
  intro a b h
  omega

theorem intRange_nodup (n : Nat) : (intRange n).Nodup := by
  unfold intRange
  refine List.Nodup.map ?_ (List.nodup_range n)
  intro a b h
  simp only at h
  exact_mod_cast h

theorem mem_intRange (n : Nat) (x : Int) : x ∈ intRange n ↔ 0 ≤ x ∧ x < n := by
  unfold intRange
  simp only [List.mem_map, List.mem_range]
  constructor
  · rintro ⟨i, hi, rfl⟩
    omega
  · rintro ⟨h0, hn⟩
    exact ⟨x.toNat, by omega, by omega⟩

theorem intRange_length (n : Nat) : (intRange n).length = n := by
  simp [intRange]

/-- A valid full-population sample draw, once sorted, is exactly the full
ascending range: there is only one set of `length` distinct integers inside
`[0, length)`. -/
theorem pySort_full_sample (L : Int) (hL : 1 ≤ L) (sd : List Int)
    (hsd : sampleDrawValid L L sd) : pySort sd = intRange L.toNat := by
  obtain ⟨hlen, hnodup, hmem⟩ := hsd
  have hperm : sd.Perm (intRange L.toNat) := by
    refine List.perm_of_nodup_nodup_toFinset_eq hnodup (intRange_nodup _) ?_
    have hsub : sd.toFinset ⊆ (intRange L.toNat).toFinset := by
      intro x hx
      rw [List.mem_toFinset] at hx ⊢
      rw [mem_intRange]
      have := hmem x hx
      omega
    refine Finset.eq_of_subset_of_card_le hsub ?_
    rw [List.toFinset_card_of_nodup hnodup,
        List.toFinset_card_of_nodup (intRange_nodup _), intRange_length]
    omega
  exact List.eq_of_perm_of_sorted ((pySort_perm sd).trans hperm)
    (pySort_sorted sd) (intRange_sorted_le _)

/-- Unfolding of the scattered branch on a valid request. -/
theorem get_ref_index_scattered_ok (L k : Int) (sd : List Int) (p : Int)
    (h0 : 0 ≤ k) (hkL : k ≤ L) :
    get_ref_index L k true sd p = .ok (pySort sd) := by
  unfold get_ref_index pyRandomSample
  have : (0 ≤ k ∧ k ≤ max L 0) := ⟨h0, le_trans hkL (le_max_left L 0)⟩
  simp [this]

/-- Unfolding of the contiguous branch on a valid request. -/
theorem get_ref_index_contiguous_ok (L k : Int) (sd : List Int) (p : Int)
    (hkL : k ≤ L) :
    get_ref_index L k false sd p
      = .ok ((List.range k.toNat).map (fun (i : Nat) => p + (i : Int))) := by
  unfold get_ref_index pyRandint
  have : (0 : Int) ≤ L - k := by omega
  simp [this]

/-- The contiguous window is strictly sorted. -/
theorem window_sorted_lt (p : Int) (n : Nat) :
    (((List.range n).map (fun (i : Nat) => p + (i : Int)))).Sorted (· < ·) := by
  rw [List.Sorted, List.pairwise_map]
  refine (List.pairwise_lt_range n).imp ?_
  intro a b h
  omega

/-! ## Claim theorems -/

/-- C1: for every `video_length ≥ 1` and every `sample_count` with
`1 ≤ sample_count ≤ video_length`, the temporal reference sampler
`get_ref_index` — and its verbatim method copies
`MUSICDataset.get_frame_index` and `AVEDataset.get_ref_index` — returns (in
either branch, for any valid random draws) a strictly increasing sequence of
exactly `sample_count` distinct integers, each in `[0, video_length)`. -/
theorem refIndexSampler_valid (L k : Int) (scattered : Bool) (sd : List Int)
    (p : Int) (hL : 1 ≤ L) (hk : 1 ≤ k) (hkL : k ≤ L)
    (hsd : sampleDrawValid L k sd) (hp : 0 ≤ p ∧ p ≤ L - k) :
    ∃ xs, get_ref_index L k scattered sd p = .ok xs ∧
      MUSICDataset.get_frame_index L k scattered sd p = .ok xs ∧
      AVEDataset.get_ref_index L k scattered sd p = .ok xs ∧
      (xs.length : Int) = k ∧ xs.Nodup ∧ xs.Sorted (· < ·) ∧
      ∀ x ∈ xs, 0 ≤ x ∧ x < L := by
  have hcopy1 : ∀ b xs q, MUSICDataset.get_frame_index L k b xs q
      = get_ref_index L k b xs q := fun _ _ _ => rfl
  have hcopy2 : ∀ b xs q, AVEDataset.get_ref_index L k b xs q
      = get_ref_index L k b xs q := fun _ _ _ => rfl
  obtain ⟨hlen, hnodup, hmem⟩ := hsd
  cases scattered
  · refine ⟨_, get_ref_index_contiguous_ok L k sd p hkL,
      (hcopy1 _ _ _).trans (get_ref_index_contiguous_ok L k sd p hkL),
      (hcopy2 _ _ _).trans (get_ref_index_contiguous_ok L k sd p hkL),
      ?_, ?_, window_sorted_lt p k.toNat, ?_⟩
    · rw [List.length_map, List.length_range]
      omega
    · refine List.Nodup.map ?_ (List.nodup_range _)
      intro a b h
      simp only at h
      omega
    · intro x hx
      simp only [List.mem_map, List.mem_range] at hx
      obtain ⟨i, hi, rfl⟩ := hx
      omega
  · refine ⟨pySort sd, get_ref_index_scattered_ok L k sd p (by omega) hkL,
      (hcopy1 _ _ _).trans (get_ref_index_scattered_ok L k sd p (by omega) hkL),
      (hcopy2 _ _ _).trans (get_ref_index_scattered_ok L k sd p (by omega) hkL),
      ?_, (pySort_perm sd).nodup_iff.mpr hnodup, pySort_sorted_lt sd hnodup, ?_⟩
    · rw [(pySort_perm sd).length_eq]
      exact hlen
    · intro x hx
      exact hmem x ((pySort_perm sd).mem_iff.mp hx)

/-- Witness for C1 at `video_length = 3`, `sample_count = 2`, scattered
branch, sample draw `[2, 0]`. -/
theorem refIndexSampler_valid_witness :
    ∃ xs, get_ref_index 3 2 true [2, 0] 0 = .ok xs ∧
      MUSICDataset.get_frame_index 3 2 true [2, 0] 0 = .ok xs ∧
      AVEDataset.get_ref_index 3 2 true [2, 0] 0 = .ok xs ∧
      (xs.length : Int) = 2 ∧ xs.Nodup ∧ xs.Sorted (· < ·) ∧
      ∀ x ∈ xs, 0 ≤ x ∧ x < 3 :=
  refIndexSampler_valid 3 2 true [2, 0] 0 (by decide) (by decide) (by decide)
    (by unfold sampleDrawValid; refine ⟨by decide, by decide, by decide⟩)
    ⟨by decide, by decide⟩

/-- C6: whenever the sampler takes the contiguous branch with
`1 ≤ sample_count ≤ video_length`, the pivot draw is accepted by
`random.randint(0, video_length - sample_count)` — whose possible results are
exactly the integers of `[0, video_length - sample_count]`, each returned
verbatim (uniformity is modelled by the oracle ranging over that interval) —
and the result is exactly the run of consecutive integers
`[pivot, pivot+1, …, pivot+sample_count-1]`. -/
theorem contiguous_branch_run (L k p : Int) (sd : List Int)
    (hk : 1 ≤ k) (hkL : k ≤ L) (hp : 0 ≤ p ∧ p ≤ L - k) :
    pyRandint 0 (L - k) p = .ok p ∧
    ∃ xs, get_ref_index L k false sd p = .ok xs ∧
      (xs.length : Int) = k ∧ xs[0]? = some p ∧
      ∀ i : Nat, i < k.toNat → xs[i]? = some (p + i) := by
  constructor
  · unfold pyRandint
    have : (0 : Int) ≤ L - k := by omega
    simp [this]
  · refine ⟨_, get_ref_index_contiguous_ok L k sd p hkL, ?_, ?_, ?_⟩
    · rw [List.length_map, List.length_range]
      omega
    · have h0 : 0 < k.toNat := by omega
      rw [List.getElem?_map, List.getElem?_range h0]
      simp
    · intro i hi
      rw [List.getElem?_map, List.getElem?_range hi]
      simp

/-- Witness for C6 at `video_length = 6`, `sample_count = 3`, pivot 2. -/
theorem contiguous_branch_run_witness :
    pyRandint 0 (6 - 3) 2 = .ok 2 ∧
    ∃ xs, get_ref_index 6 3 false [] 2 = .ok xs ∧
      (xs.length : Int) = 3 ∧ xs[0]? = some 2 ∧
      ∀ i : Nat, i < (3 : Int).toNat → xs[i]? = some (2 + i) :=
  contiguous_branch_run 6 3 2 [] (by decide) (by decide) ⟨by decide, by decide⟩

/-- C7: at the boundary `sample_count == video_length`, a call succeeds in
both branches: in contiguous mode the only pivot `random.randint(0, 0)` can
return is 0, and in scattered mode the sorted full-population sample is
exactly `[0, 1, …, video_length-1]`; both branches return the full list of
frame indices. -/
theorem boundary_full_sample (L : Int) (hL : 1 ≤ L) (sd : List Int) (p : Int)
    (hsd : sampleDrawValid L L sd) (hp : 0 ≤ p ∧ p ≤ L - L) :
    p = 0 ∧
    get_ref_index L L false sd p = .ok (intRange L.toNat) ∧
    get_ref_index L L true sd p = .ok (intRange L.toNat) := by
  have hp0 : p = 0 := by omega
  subst hp0
  refine ⟨rfl, ?_, ?_⟩
  · rw [get_ref_index_contiguous_ok L L sd 0 le_rfl]
    unfold intRange
    congr 1
    refine List.map_congr_left ?_
    intro i _
    omega
  · rw [get_ref_index_scattered_ok L L sd 0 (by omega) le_rfl,
        pySort_full_sample L hL sd hsd]

/-- Witness for C7 at `video_length = 3`, sample draw `[1, 0, 2]`. -/
theorem boundary_full_sample_witness :
    (0 : Int) = 0 ∧
    get_ref_index 3 3 false [1, 0, 2] 0 = .ok (intRange (3 : Int).toNat) ∧
    get_ref_index 3 3 true [1, 0, 2] 0 = .ok (intRange (3 : Int).toNat) :=
  boundary_full_sample 3 (by decide) [1, 0, 2] 0
    (by unfold sampleDrawValid; refine ⟨by decide, by decide, by decide⟩)
    ⟨by decide, by decide⟩

/-- Unfolding of the scattered branch on an invalid request. -/
theorem get_ref_index_scattered_error (L k : Int) (sd : List Int) (p : Int)
    (h : ¬ (0 ≤ k ∧ k ≤ max L 0)) :
    get_ref_index L k true sd p = .error .valueError := by
  unfold get_ref_index pyRandomSample
  rw [if_pos rfl, if_neg h]

/-- Unfolding of the contiguous branch on an invalid request. -/
theorem get_ref_index_contiguous_error (L k : Int) (sd : List Int) (p : Int)
    (h : ¬ ((0 : Int) ≤ L - k)) :
    get_ref_index L k false sd p = .error .valueError := by
  unfold get_ref_index pyRandint
  rw [if_neg (by simp), if_neg h]

/-- C2 (evidence of the defect the spec flags in its section 9): with
`video_length = 5` and non-positive `sample_count`, the sampler does not fail.
For `sample_count = 0` both branches silently return `[]` (the empty sample
draw and the pivot draw 0 are valid draws there), and for `sample_count = -1`
the contiguous branch silently returns `[]` as well
(`random.randint(0, 5 - (-1))` succeeds and `range(-1)` is empty).  The spec
requires a synchronous `InvalidSampleSize` failure whenever `sample_count` is
non-positive; only `sample_count > video_length` actually raises. -/
theorem nonpositive_sample_count_silent :
    get_ref_index 5 0 true [] 0 = .ok [] ∧
    get_ref_index 5 0 false [] 0 = .ok [] ∧
    get_ref_index 5 (-1) false [] 0 = .ok [] := by
  refine ⟨?_, by decide, by decide⟩
  rw [get_ref_index_scattered_ok 5 0 [] 0 (by decide) (by decide)]
  simp [pySort]

/-- C9 counterexample: with `length = 7`, `ref_count = -2`, the contiguous
branch does not raise: `random.randint(0, 7 - (-2)) = random.randint(0, 9)`
succeeds (pivot draw 0 is a valid draw), and `range(-2)` is empty, so the call
silently returns `.ok []` — refuting "raises an exception (ValueError) in
whichever of the two branches is taken" for negative `ref_count`. -/
theorem negative_count_contiguous_silent :
    get_ref_index 7 (-2) false [] 0 = .ok [] ∧
    get_ref_index 7 (-2) false [] 0 ≠ .error .valueError := by
  decide

/-- C9 amended: for `ref_count > length` (with `length ≥ 0`) both branches
raise `ValueError`; for negative `ref_count` the scattered branch raises
`ValueError` but the contiguous branch silently returns the empty list; and in
all cases a successful return under valid draws contains only indices inside
`[0, length)`. -/
theorem refIndex_error_behaviour (L k : Int) (scattered : Bool)
    (sd : List Int) (p : Int) :
    (0 ≤ L → L < k → get_ref_index L k scattered sd p = .error .valueError) ∧
    (k < 0 → get_ref_index L k true sd p = .error .valueError) ∧
    (k < 0 → 0 ≤ L → get_ref_index L k false sd p = .ok []) ∧
    (∀ xs, sampleDrawValid L k sd → 0 ≤ p → p ≤ L - k →
      get_ref_index L k scattered sd p = .ok xs → ∀ x ∈ xs, 0 ≤ x ∧ x < L) := by
  refine ⟨?_, ?_, ?_, ?_⟩
  · intro hL hLk
    cases scattered
    · exact get_ref_index_contiguous_error L k sd p (by omega)
    · refine get_ref_index_scattered_error L k sd p ?_
      rintro ⟨-, h2⟩
      rw [max_eq_left hL] at h2
      omega
  · intro hk
    exact get_ref_index_scattered_error L k sd p (by rintro ⟨h1, -⟩; omega)
  · intro hk hL
    rw [get_ref_index_contiguous_ok L k sd p (by omega)]
    have hz : k.toNat = 0 := by omega
    rw [hz]
    rfl
  · intro xs hsd hp1 hp2 hok x hx
    obtain ⟨hlen, hnodup, hmem⟩ := hsd
    have hkL : k ≤ L := by omega
    cases scattered
    · rw [get_ref_index_contiguous_ok L k sd p hkL] at hok
      cases hok
      simp only [List.mem_map, List.mem_range] at hx
      obtain ⟨i, hi, rfl⟩ := hx
      have : (i : Int) < k := by omega
      omega
    · by_cases h0 : 0 ≤ k
      · rw [get_ref_index_scattered_ok L k sd p h0 hkL] at hok
        cases hok
        exact hmem x ((pySort_perm sd).mem_iff.mp hx)
      · rw [get_ref_index_scattered_error L k sd p (by rintro ⟨h1, -⟩; omega)]
          at hok
        cases hok

/-- Witness for the C9 amended statement at `length = 5`, `ref_count = 6` and
at `length = 5`, `ref_count = -1`. -/
theorem refIndex_error_behaviour_witness :
    get_ref_index 5 6 true [] 0 = .error .valueError ∧
    get_ref_index 5 6 false [] 0 = .error .valueError ∧
    get_ref_index 5 (-1) true [] 0 = .error .valueError ∧
    get_ref_index 5 (-1) false [] 0 = .ok [] :=
  ⟨(refIndex_error_behaviour 5 6 true [] 0).1 (by decide) (by decide),
   (refIndex_error_behaviour 5 6 false [] 0).1 (by decide) (by decide),
   (refIndex_error_behaviour 5 (-1) true [] 0).2.1 (by decide),
   (refIndex_error_behaviour 5 (-1) false [] 0).2.2.1 (by decide) (by decide)⟩

/-- The sample selection loop only ever advances the shared generator
position and never changes the stream itself. -/
theorem rngSampleAux_state (k : Nat) (pool : List Int) (g : GlobalRNG) :
    g.pos ≤ (rngSampleAux k pool g).2.pos ∧
    (rngSampleAux k pool g).2.tape = g.tape := by
  induction k generalizing pool g
  case zero => exact ⟨le_rfl, rfl⟩
  case succ k ih =>
    have h := ih (pool.eraseIdx (g.tape g.pos % pool.length)) ⟨g.tape, g.pos + 1⟩
    simp only [rngSampleAux, rngNext]
    exact ⟨le_trans (Nat.le_succ _) h.1, h.2⟩

/-- C8 counterexample: `get_ref_index` draws from the process-wide `random`
module; under the state-threaded embedding, two different states of the
shared generator (same read position, different pre-drawn streams) make a
call with identical arguments `(length, sample_count) = (10, 2)` return
different index lists — the call reads shared global state — and the call
leaves the generator at a later position than it found it — the call writes
shared global state. -/
theorem refIndex_reads_and_writes_global_state :
    (getRefIndexGlobal 10 2 ⟨fun _ => 0, 0⟩).1 = .ok [0, 1] ∧
    (getRefIndexGlobal 10 2 ⟨fun n => if n = 1 then 1 else 0, 0⟩).1 = .ok [1, 2] ∧
    (getRefIndexGlobal 10 2 ⟨fun _ => 0, 0⟩).2.pos = 2 ∧
    (⟨fun _ => 0, 0⟩ : GlobalRNG).pos = 0 := by
  refine ⟨by decide, by decide, by decide, rfl⟩

/-- C8 amended: every call of the sampler reads and advances the single
process-wide random generator, rather than using a call-local independent
source: the shared read position strictly increases across any call (the coin
flip alone consumes one draw, the chosen branch may consume more), the shared
stream object is the same one afterwards (mutated in place, not replaced),
and there exist generator states at equal positions from which identical
arguments yield different outputs. -/
theorem refIndex_uses_shared_global_rng (L k : Int) (g : GlobalRNG) :
    g.pos < (getRefIndexGlobal L k g).2.pos ∧
    (getRefIndexGlobal L k g).2.tape = g.tape ∧
    ∃ g1 g2 : GlobalRNG, g1.pos = g2.pos ∧
      (getRefIndexGlobal 10 2 g1).1 ≠ (getRefIndexGlobal 10 2 g2).1 := by
  refine ⟨?_, ?_, ⟨fun _ => 0, 0⟩, ⟨fun n => if n = 1 then 1 else 0, 0⟩,
    rfl, by decide⟩
  · simp only [getRefIndexGlobal, rngCoin, rngSample, rngRandint, rngNext]
    cases hc : g.tape g.pos % 2 == 1
    · simp only [Bool.cond_false]
      by_cases hr : (0 : Int) ≤ L - k
      · rw [if_pos hr]
        exact Nat.lt_of_lt_of_le (Nat.lt_succ_self _) (Nat.le_succ _)
      · rw [if_neg hr]
        exact Nat.lt_succ_self _
    · simp only [Bool.cond_true]
      by_cases hs : 0 ≤ k ∧ k ≤ max L 0
      · have h := rngSampleAux_state k.toNat (intRange L.toNat) ⟨g.tape, g.pos + 1⟩
        rw [if_pos hs]
        exact lt_of_lt_of_le (Nat.lt_succ_self _) h.1
      · rw [if_neg hs]
        exact Nat.lt_succ_self _
  · simp only [getRefIndexGlobal, rngCoin, rngSample, rngRandint, rngNext]
    cases hc : g.tape g.pos % 2 == 1
    · simp only [Bool.cond_false]
      by_cases hr : (0 : Int) ≤ L - k
      · rw [if_pos hr]
      · rw [if_neg hr]
    · simp only [Bool.cond_true]
      by_cases hs : 0 ≤ k ∧ k ≤ max L 0
      · have h := rngSampleAux_state k.toNat (intRange L.toNat) ⟨g.tape, g.pos + 1⟩
        rw [if_pos hs]
        exact h.2
      · rw [if_neg hs]

/-- A rasterized rectangle always has the requested grid resolution,
whatever the rectangle's position and extent. -/
theorem rectGrid_res (h w x0 y0 rh rw' : Nat) :
    gridRes (rectGrid h w x0 y0 rh rw') h w := by
  unfold gridRes rectGrid
  constructor
  · rw [List.length_map, List.length_range]
  · intro row hrow
    simp only [List.mem_map, List.mem_range] at hrow
    obtain ⟨i, hi, rfl⟩ := hrow
    rw [List.length_map, List.length_range]

/-- Counting `true` entries of a mapped decidable predicate over a range,
expressed as a filtered-finset cardinality. -/
theorem countP_range_eq_filter_card (w : Nat) (p : Nat → Prop)
    [DecidablePred p] :
    (List.range w).countP (fun j => decide (p j))
      = (Finset.filter p (Finset.range w)).card := by
  simp [List.countP_eq_length_filter]
  rfl

/-- Counting the occluded pixels of one raster row of a rectangle. -/
theorem rectGrid_row_count (w x0 rw' : Nat) (P : Prop) [Decidable P]
    (hle : x0 + rw' ≤ w) :
    ((List.range w).map (fun j => decide (x0 ≤ j ∧ j < x0 + rw' ∧ P))).countP id
      = if P then rw' else 0 := by
  rw [List.countP_map]
  have hid : (List.range w).countP (id ∘ fun j => decide (x0 ≤ j ∧ j < x0 + rw' ∧ P))
      = (List.range w).countP (fun j => decide (x0 ≤ j ∧ j < x0 + rw' ∧ P)) := rfl
  rw [hid, countP_range_eq_filter_card w (fun j => x0 ≤ j ∧ j < x0 + rw' ∧ P)]
  by_cases hP : P
  · rw [if_pos hP]
    have : Finset.filter (fun j => x0 ≤ j ∧ j < x0 + rw' ∧ P) (Finset.range w)
        = Finset.Ico x0 (x0 + rw') := by
      ext j
      simp only [Finset.mem_filter, Finset.mem_range, Finset.mem_Ico]
      constructor
      · rintro ⟨h1, h2, h3, h4⟩
        omega
      · rintro ⟨h1, h2⟩
        exact ⟨by omega, h1, h2, hP⟩
    rw [this, Nat.card_Ico]
    omega
  · rw [if_neg hP]
    have : Finset.filter (fun j => x0 ≤ j ∧ j < x0 + rw' ∧ P) (Finset.range w)
        = ∅ := by
      refine Finset.filter_false_of_mem ?_
      rintro j hj ⟨h1, h2, h3⟩
      exact hP h3
    rw [this, Finset.card_empty]

/-- Coverage of a rasterized in-bounds rectangle is its area. -/
theorem rectGrid_coverage (h w x0 y0 rh rw' : Nat)
    (hx : x0 + rw' ≤ w) (hy : y0 + rh ≤ h) :
    coverage (rectGrid h w x0 y0 rh rw') = rh * rw' := by
  unfold coverage rectGrid
  rw [List.map_map]
  have hrow : ((fun row : List Bool => row.countP id) ∘ fun i =>
      (List.range w).map (fun j => decide (x0 ≤ j ∧ j < x0 + rw' ∧ y0 ≤ i ∧ i < y0 + rh)))
      = fun i => if y0 ≤ i ∧ i < y0 + rh then rw' else 0 := by
    funext i
    exact rectGrid_row_count w x0 rw' (y0 ≤ i ∧ i < y0 + rh) hx
  rw [hrow]
  have hsum : ((List.range h).map (fun i => if y0 ≤ i ∧ i < y0 + rh then rw' else 0)).sum
      = ∑ i in Finset.range h, (if y0 ≤ i ∧ i < y0 + rh then rw' else 0) := rfl
  rw [hsum, ← Finset.sum_filter, Finset.sum_const, smul_eq_mul]
  have : Finset.filter (fun i => y0 ≤ i ∧ i < y0 + rh) (Finset.range h)
      = Finset.Ico y0 (y0 + rh) := by
    ext i
    simp only [Finset.mem_filter, Finset.mem_range, Finset.mem_Ico]
    constructor
    · rintro ⟨h1, h2, h3⟩
      omega
    · rintro ⟨h1, h2⟩
      exact ⟨by omega, h1, h2⟩
  rw [this, Nat.card_Ico, Nat.add_sub_cancel_left]

/-- Clamping never exceeds the upper bound. -/
theorem clampToRange_le (v : Int) (hi : Nat) : clampToRange v hi ≤ hi := by
  unfold clampToRange
  rcases le_total v (hi : Int) with h | h
  · rw [min_eq_left h]
    omega
  · rw [min_eq_right h]
    omega

/-- Clamped motion moves the coordinate by no more than the raw step: from a
position inside `[0, hi]`, adding `d` with `|d| ≤ vmax` and clamping lands
within `vmax` of the start. -/
theorem clampToRange_move (x : Nat) (d : Int) (hi vmax : Nat)
    (hx : x ≤ hi) (h1 : -(vmax : Int) ≤ d) (h2 : d ≤ vmax) :
    -(vmax : Int) ≤ (clampToRange ((x : Int) + d) hi : Int) - x ∧
    ((clampToRange ((x : Int) + d) hi : Int) - x) ≤ vmax := by
  unfold clampToRange
  rcases le_total ((x : Int) + d) (hi : Int) with h | h
  · rw [min_eq_left h]
    constructor <;> omega
  · rw [min_eq_right h]
    constructor <;> omega

/-- The shape corner always stays inside the frame. -/
theorem shapeStates_inbounds (height width : Nat) (dr : ShapeDraws) (t : Nat) :
    (shapeStates height width dr t).x ≤ width - dr.size ∧
    (shapeStates height width dr t).y ≤ height - dr.size := by
  induction t
  case zero =>
    simp only [shapeStates]
    exact ⟨min_le_right _ _, min_le_right _ _⟩
  case succ t ih =>
    simp only [shapeStates, shapeStep]
    exact ⟨clampToRange_le _ _, clampToRange_le _ _⟩

/-- Per-frame displacement bound of the shape corner (and hence of the
occluded square's centroid, which sits at a fixed offset from the corner). -/
theorem shapeStates_step_bound (height width vmax : Nat) (dr : ShapeDraws)
    (hdr : shapeDrawValid height width vmax dr) (t : Nat) :
    (((shapeStates height width dr (t + 1)).x : Int)
        - ((shapeStates height width dr t).x : Int)) ^ 2
      + (((shapeStates height width dr (t + 1)).y : Int)
        - ((shapeStates height width dr t).y : Int)) ^ 2
      ≤ 2 * (vmax : Int) ^ 2 := by
  obtain ⟨hs1, hsh, hsw, hmv⟩ := hdr
  have hb := shapeStates_inbounds height width dr t
  obtain ⟨hmx1, hmx2, hmy1, hmy2⟩ := hmv t
  simp only [shapeStates, shapeStep]
  have hx := clampToRange_move (shapeStates height width dr t).x (dr.move t).1
    (width - dr.size) vmax hb.1 hmx1 hmx2
  have hy := clampToRange_move (shapeStates height width dr t).y (dr.move t).2
    (height - dr.size) vmax hb.2 hmy1 hmy2
  have h1 := sq_le_sq' hx.1 hx.2
  have h2 := sq_le_sq' hy.1 hy.2
  linarith

/-- C5 (spec-modelled, `create_random_shape_with_random_motion` is in the
missing `core/utils.py`): for every `frame_count ≥ 1` and valid per-sequence
draws over positive frame geometry, the moving-shape generator returns
exactly `frame_count` masks, each of resolution `height × width`, each with
coverage ratio strictly above 0 and below the configured maximum of one half
(`2 * coverage < height * width`); mask `t` is exactly the square at the
frame-`t` shape state, and the squared Euclidean displacement of the occluded
region (its corner, hence its centroid) between consecutive frames is at most
`2 * vmax²`, `vmax` being the configured per-frame velocity bound. -/
theorem movingShape_invariants (frameCount height width vmax : Nat)
    (dr : ShapeDraws) (hf : 1 ≤ frameCount)
    (hdr : shapeDrawValid height width vmax dr) :
    (create_random_shape_with_random_motion frameCount height width dr).length
        = frameCount ∧
    (∀ m ∈ create_random_shape_with_random_motion frameCount height width dr,
      gridRes m height width) ∧
    (∀ m ∈ create_random_shape_with_random_motion frameCount height width dr,
      0 < coverage m ∧ 2 * coverage m < height * width) ∧
    (∀ t : Nat, t < frameCount →
      (create_random_shape_with_random_motion frameCount height width dr)[t]?
        = some (rectGrid height width (shapeStates height width dr t).x
            (shapeStates height width dr t).y dr.size dr.size)) ∧
    (∀ t : Nat,
      (((shapeStates height width dr (t + 1)).x : Int)
          - ((shapeStates height width dr t).x : Int)) ^ 2
        + (((shapeStates height width dr (t + 1)).y : Int)
          - ((shapeStates height width dr t).y : Int)) ^ 2
        ≤ 2 * (vmax : Int) ^ 2) := by
  obtain ⟨hs1, hsh, hsw, hmv⟩ := hdr
  have hcov : ∀ t : Nat,
      coverage (rectGrid height width (shapeStates height width dr t).x
        (shapeStates height width dr t).y dr.size dr.size)
      = dr.size * dr.size := by
    intro t
    have hb := shapeStates_inbounds height width dr t
    exact rectGrid_coverage height width _ _ dr.size dr.size
      (by omega) (by omega)
  have h4 : 4 * (dr.size * dr.size) ≤ height * width := by
    calc 4 * (dr.size * dr.size) = (2 * dr.size) * (2 * dr.size) := by ring
      _ ≤ height * width := Nat.mul_le_mul hsh hsw
  have hpos : 0 < dr.size * dr.size := Nat.mul_pos hs1 hs1
  refine ⟨?_, ?_, ?_, ?_, ?_⟩
  · unfold create_random_shape_with_random_motion
    rw [List.length_map, List.length_range]
  · intro m hm
    unfold create_random_shape_with_random_motion at hm
    simp only [List.mem_map, List.mem_range] at hm
    obtain ⟨t, ht, rfl⟩ := hm
    exact rectGrid_res height width _ _ dr.size dr.size
  · intro m hm
    unfold create_random_shape_with_random_motion at hm
    simp only [List.mem_map, List.mem_range] at hm
    obtain ⟨t, ht, rfl⟩ := hm
    constructor
    · rw [hcov t]
      exact hpos
    · rw [hcov t]
      linarith
  · intro t ht
    unfold create_random_shape_with_random_motion
    rw [List.getElem?_map, List.getElem?_range ht]
    rfl
  · exact fun t => shapeStates_step_bound height width vmax dr
      ⟨hs1, hsh, hsw, hmv⟩ t

/-- Witness for C5 at `frame_count = 2`, a 4×4 frame, side-1 square starting
at the origin, constant velocity draw `(1, 0)`, `vmax = 1`. -/
theorem movingShape_invariants_witness :
    (create_random_shape_with_random_motion 2 4 4 ⟨1, 0, 0, fun _ => (1, 0)⟩).length = 2 ∧
    (∀ m ∈ create_random_shape_with_random_motion 2 4 4 ⟨1, 0, 0, fun _ => (1, 0)⟩,
      gridRes m 4 4) ∧
    (∀ m ∈ create_random_shape_with_random_motion 2 4 4 ⟨1, 0, 0, fun _ => (1, 0)⟩,
      0 < coverage m ∧ 2 * coverage m < 4 * 4) ∧
    (∀ t : Nat, t < 2 →
      (create_random_shape_with_random_motion 2 4 4 ⟨1, 0, 0, fun _ => (1, 0)⟩)[t]?
        = some (rectGrid 4 4 (shapeStates 4 4 ⟨1, 0, 0, fun _ => (1, 0)⟩ t).x
            (shapeStates 4 4 ⟨1, 0, 0, fun _ => (1, 0)⟩ t).y 1 1)) ∧
    (∀ t : Nat,
      (((shapeStates 4 4 ⟨1, 0, 0, fun _ => (1, 0)⟩ (t + 1)).x : Int)
          - ((shapeStates 4 4 ⟨1, 0, 0, fun _ => (1, 0)⟩ t).x : Int)) ^ 2
        + (((shapeStates 4 4 ⟨1, 0, 0, fun _ => (1, 0)⟩ (t + 1)).y : Int)
          - ((shapeStates 4 4 ⟨1, 0, 0, fun _ => (1, 0)⟩ t).y : Int)) ^ 2
        ≤ 2 * ((1 : Nat) : Int) ^ 2) :=
  movingShape_invariants 2 4 4 1 ⟨1, 0, 0, fun _ => (1, 0)⟩ (by decide)
    (by
      unfold shapeDrawValid
      refine ⟨by decide, by decide, by decide, fun n => ?_⟩
      norm_num)

/-- Python list subscription at a valid non-negative index returns the
element. -/
theorem pyListGet_nonneg {α : Type} (l : List α) (i : Int) (h0 : 0 ≤ i)
    (hlt : i.toNat < l.length) :
    pyListGet l i = .ok (l.get ⟨i.toNat, hlt⟩) := by
  unfold pyListGet pyIndex
  have hneg : ¬ i < 0 := by omega
  simp only [hneg, if_false]
  rw [dif_pos ⟨h0, hlt⟩]

/-- Mapping Python subscription over a list of valid non-negative indices
succeeds, preserves length and membership, and aligns position `j` of the
output with index `j` of the index list. -/
theorem mapM_pyListGet_ok {α : Type} (masks : List α) (l : List Int)
    (hl : ∀ i ∈ l, 0 ≤ i ∧ i.toNat < masks.length) :
    ∃ ms, l.mapM (fun i => pyListGet masks i) = .ok ms ∧
      ms.length = l.length ∧ (∀ m ∈ ms, m ∈ masks) ∧
      ∀ j : Nat, ms[j]? = l[j]?.bind (fun i => masks[i.toNat]?) := by
  induction l
  case nil =>
    refine ⟨[], rfl, rfl, by simp, by simp⟩
  case cons x xs ih =>
    obtain ⟨hx1, hx2⟩ := hl x (List.mem_cons_self x xs)
    obtain ⟨ms, hms, hlen, hmem, halign⟩ :=
      ih (fun i hi => hl i (List.mem_cons_of_mem x hi))
    refine ⟨masks.get ⟨x.toNat, hx2⟩ :: ms, ?_, ?_, ?_, ?_⟩
    · rw [List.mapM_cons, pyListGet_nonneg masks x hx1 hx2, hms]
      rfl
    · simp [hlen]
    · intro m hm
      rcases List.mem_cons.mp hm with hm | hm
      · rw [hm]
        exact List.get_mem masks _ hx2
      · exact hmem m hm
    · intro j
      cases j
      case zero =>
        simp only [List.getElem?_cons_zero, Option.some_bind]
        rw [List.getElem?_eq_getElem hx2]
        rfl
      case succ j =>
        simp only [List.getElem?_cons_succ]
        exact halign j

/-- C4 (spec-modelled, `create_fixed_rectangular_mask` is in the missing
`core/utils.py`): the fixed-region generator's output is a pure function of
`(count, height, width, seed)` — its rectangle is derived from `seed` through
a call-local seeded source — so its result is independent of the
process-wide random stream's state: any two calls with identical arguments,
whatever the global generator holds at call time (e.g. after reseeding the
process), yield bit-identical mask sequences, and the sequence has length
`count`. -/
theorem fixed_mask_deterministic (count height width seed : Nat)
    (g1 g2 : GlobalRNG) :
    create_fixed_rectangular_mask count height width seed g1
      = create_fixed_rectangular_mask count height width seed g2 ∧
    (create_fixed_rectangular_mask count height width seed g1).length
      = count := by
  refine ⟨rfl, ?_⟩
  unfold create_fixed_rectangular_mask
  rw [List.length_replicate]

/-- C3 counterexample: a `MUSICDataset` item request configured with
`ref_frames = 4` (and even the matching 256×256 geometry) receives a
`MaskSequence` of length 5, not 4: `core/dataset.py` line 54 hardcodes
`create_fixed_rectangular_mask(5, 256, 256, 42)`, ignoring the configured
`sample_length`. -/
theorem music_mask_count_mismatch :
    (MUSICDataset.getItemMasks 4 256 256 ⟨fun _ => 0, 0⟩).length = 5 ∧
    (MUSICDataset.getItemMasks 4 256 256 ⟨fun _ => 0, 0⟩).length ≠ 4 := by
  unfold MUSICDataset.getItemMasks create_fixed_rectangular_mask
  rw [List.length_replicate]
  exact ⟨rfl, by decide⟩

/-- C3 amended: on the `Dataset.load_item` path the `MaskSequence` does have
length exactly `sample_count`, per-mask resolution exactly the requested
`(height, width)`, and is index-aligned with the `FrameIndexSet` (mask `j` is
the generated mask at frame index `ref_index[j]`); but on the
`MUSICDataset.__getitem__` path the `MaskSequence` is always the fixed
5-element 256×256 sequence regardless of the requested `sample_count` and
`(height, width)`, so there the adapter contract holds only when
`sample_count = 5` and the requested resolution is 256×256. -/
theorem maskSequence_contract (numFrames : Nat) (k : Int) (h w vmax : Nat)
    (dr : ShapeDraws) (scattered : Bool) (sd : List Int) (p : Int)
    (hn : 1 ≤ numFrames) (hk : 1 ≤ k) (hkL : k ≤ (numFrames : Int))
    (hsd : sampleDrawValid numFrames k sd) (hp : 0 ≤ p ∧ p ≤ numFrames - k)
    (hdr : shapeDrawValid h w vmax dr) :
    (∃ refIndex ms,
      get_ref_index numFrames k scattered sd p = .ok refIndex ∧
      Dataset.loadItemMasks numFrames k h w dr scattered sd p = .ok ms ∧
      (ms.length : Int) = k ∧ (∀ m ∈ ms, gridRes m h w) ∧
      ∀ j : Nat, ms[j]? = refIndex[j]?.bind (fun i =>
        (create_random_shape_with_random_motion numFrames h w dr)[i.toNat]?)) ∧
    (∀ rf hh ww : Nat, ∀ g : GlobalRNG,
      (MUSICDataset.getItemMasks rf hh ww g).length = 5 ∧
      ∀ m ∈ MUSICDataset.getItemMasks rf hh ww g, gridRes m 256 256) := by
  constructor
  · obtain ⟨refIndex, hok, -, -, hlen, -, -, hmem⟩ :=
      refIndexSampler_valid numFrames k scattered sd p
        (by exact_mod_cast hn) hk hkL hsd hp
    have hshape :=
      movingShape_invariants numFrames h w vmax dr hn hdr
    have hnum : (create_random_shape_with_random_motion numFrames h w dr).length
        = numFrames := hshape.1
    obtain ⟨ms, hms, hmslen, hmsmem, halign⟩ :=
      mapM_pyListGet_ok (create_random_shape_with_random_motion numFrames h w dr)
        refIndex (by
          intro i hi
          have := hmem i hi
          rw [hnum]
          omega)
    refine ⟨refIndex, ms, hok, ?_, ?_, ?_, halign⟩
    · unfold Dataset.loadItemMasks
      rw [hok]
      exact hms
    · rw [hmslen]
      exact hlen
    · intro m hm
      exact hshape.2.1 m (hmsmem m hm)
  · intro rf hh ww g
    unfold MUSICDataset.getItemMasks create_fixed_rectangular_mask
    constructor
    · rw [List.length_replicate]
    · intro m hm
      rw [List.eq_of_mem_replicate hm]
      exact rectGrid_res 256 256 _ _ _ _

/-- Witness for the C3 amended statement: `Dataset.load_item` with a
10-frame video, `sample_length = 2`, an 8×8 frame, a side-1 square with no
motion, contiguous branch, pivot 3. -/
theorem maskSequence_contract_witness :
    (∃ refIndex ms,
      get_ref_index 10 2 false [5, 1] 3 = .ok refIndex ∧
      Dataset.loadItemMasks 10 2 8 8 ⟨1, 0, 0, fun _ => (0, 0)⟩ false [5, 1] 3
        = .ok ms ∧
      (ms.length : Int) = 2 ∧ (∀ m ∈ ms, gridRes m 8 8) ∧
      ∀ j : Nat, ms[j]? = refIndex[j]?.bind (fun i =>
        (create_random_shape_with_random_motion 10 8 8
          ⟨1, 0, 0, fun _ => (0, 0)⟩)[i.toNat]?)) ∧
    (∀ rf hh ww : Nat, ∀ g : GlobalRNG,
      (MUSICDataset.getItemMasks rf hh ww g).length = 5 ∧
      ∀ m ∈ MUSICDataset.getItemMasks rf hh ww g, gridRes m 256 256) :=
  maskSequence_contract 10 2 8 8 0 ⟨1, 0, 0, fun _ => (0, 0)⟩ false [5, 1] 3
    (by decide) (by decide) (by decide)
    (by unfold sampleDrawValid; refine ⟨by decide, by decide, by decide⟩)
    ⟨by decide, by decide⟩
    (by unfold shapeDrawValid
        refine ⟨by decide, by decide, by decide, fun n => ?_⟩
        norm_num)

/-- C10: in `AVEDataset.__getitem__` the moving-shape mask sequence bound at
line 114 is discarded before use: line 121 rebinds `all_masks` to
`len(all_frames)` references to the one static mask image loaded from
`mask_dir` (possibly flipped), so the returned `MaskSequence` is independent
of the moving-shape output and every one of its masks is the same static
mask — it exhibits no per-frame motion. -/
theorem ave_masks_all_static {α : Type} (movingMasks movingMasks2 : List α)
    (staticMask : α) (numFrames : Nat) (refIndex : List Int)
    (hidx : ∀ i ∈ refIndex, 0 ≤ i ∧ i.toNat < numFrames) :
    AVEDataset.getItemMasks movingMasks staticMask numFrames refIndex
      = .ok (List.replicate refIndex.length staticMask) ∧
    AVEDataset.getItemMasks movingMasks staticMask numFrames refIndex
      = AVEDataset.getItemMasks movingMasks2 staticMask numFrames refIndex := by
  refine ⟨?_, rfl⟩
  unfold AVEDataset.getItemMasks
  obtain ⟨ms, hms, hlen, hmem, -⟩ :=
    mapM_pyListGet_ok (List.replicate numFrames staticMask) refIndex
      (by simpa using hidx)
  rw [hms]
  have : ms = List.replicate refIndex.length staticMask := by
    refine List.eq_replicate.mpr ⟨hlen, ?_⟩
    intro b hb
    exact List.eq_of_mem_replicate (hmem b hb)
  rw [this]

/-- Witness for C10: three frames, static mask `7`, moving-shape sequences
`[1, 2, 3]` and `[9, 8, 7]`, sampled indices `[0, 2]`. -/
theorem ave_masks_all_static_witness :
    AVEDataset.getItemMasks [1, 2, 3] 7 3 [0, 2]
      = .ok (List.replicate ([0, 2] : List Int).length 7) ∧
    AVEDataset.getItemMasks [1, 2, 3] 7 3 [0, 2]
      = AVEDataset.getItemMasks [9, 8, 7] 7 3 [0, 2] :=
  ave_masks_all_static [1, 2, 3] [9, 8, 7] 7 3 [0, 2] (by decide)
